import Mathlib

/-!
Verification of the slit-spectrograph raster library
(`src/sunraster/raster.py`, `src/sunraster/spectrogram_sequence.py`).

The shallow embedding below translates the parts of the source that the
claims are about:

* the physical-unit bookkeeping used by the exposure-time correction
  (`astropy` units enter only through `decompose().bases`, multiplication
  and division by the seconds unit, so a unit is modelled by its decomposed
  base-unit exponents with the seconds exponent singled out);
* the pure correction functions `_calculate_exposure_time_correction` and
  `_uncalculate_exposure_time_correction`;
* the cube-level `Raster.apply_exposure_time_correction` with its
  rank-keyed broadcast-reshape of a per-exposure exposure-time array
  (arrays are modelled as C-order flat lists of rationals with a shape);
* the axis-name resolution `Raster._find_axis_name`, the supported-name
  tables, and the five named-role coordinate accessors;
* the `RasterSequence` instrument-axis-type derivation and the label
  bookkeeping of the as-raster slicing view
  (`_SequenceSlicer.__getitem__`, `_slice_scan_axis_types`).
-/

namespace SlitSpec

/-! ### Units

`SUnit` models an astropy unit by the exponents of its decomposed base
units: `secExp` is the exponent of the seconds base unit, `others` the
remaining base units with their exponents (never touched by the code under
study).  `u.s in unit.decompose().bases` holds exactly when the seconds
exponent is non-zero. -/

structure SUnit where
  secExp : Int
  others : List (String × Int)
deriving DecidableEq, Repr

/-- Truth of `u.s in unit.decompose().bases`: the seconds base unit appears in the
decomposed base-unit set. -/
def SUnit.hasSecondBase (u : SUnit) : Prop := u.secExp ≠ 0

instance (u : SUnit) : Decidable u.hasSecondBase :=
  inferInstanceAs (Decidable (u.secExp ≠ 0))

/-- Division `unit / u.s`. -/
def SUnit.divSecond (u : SUnit) : SUnit := { u with secExp := u.secExp - 1 }

/-- Multiplication `unit * u.s`. -/
def SUnit.mulSecond (u : SUnit) : SUnit := { u with secExp := u.secExp + 1 }

/-- Modelled from the spec: a unit "lacking inverse time" is one whose
decomposition carries no negative power of the seconds base unit. -/
def spec_lacks_inverse_time (u : SUnit) : Prop := 0 ≤ u.secExp

instance (u : SUnit) : Decidable (spec_lacks_inverse_time u) :=
  inferInstanceAs (Decidable (0 ≤ u.secExp))

/-! ### Arrays

Data arrays are numpy arrays; the embedding keeps them as their C-order
flat element list together with the shape.  Rationals stand for the float
entries (the arithmetic of the code is plain `/` and `*`). -/

structure NDArr where
  shape : List Nat
  flat : List Rat
deriving DecidableEq, Repr

def NDArr.rank (a : NDArr) : Nat := a.shape.length

/-- The number of flat elements spanned by one step of the first axis. -/
def NDArr.firstStride (a : NDArr) : Nat := (a.shape.drop 1).prod

/-- The exposure time in seconds as the code sees it after
`self.exposure_time.to(u.s).value`: a scalar or a 1-D per-exposure array. -/
inductive ExpTime where
  | scalarT (t : Rat)
  | perExposure (e : List Rat)
deriving DecidableEq, Repr

/-- The exposure time after the rank-keyed reshape, as it is passed to the
pure correction functions: a scalar or an array of shape `(N, 1, ..., 1)`. -/
inductive BExp where
  | scalarB (t : Rat)
  | arrB (a : NDArr)
deriving DecidableEq, Repr

/-- Element `k` of the flat list is divided by the exposure entry of its
first-axis index `k / stride`: numpy broadcasting of a shape-`(N,1,...,1)`
divisor against a C-order shape-`(N,...)` array. -/
def divFlat (e : List Rat) (stride : Nat) : Nat → List Rat → List Rat
  | _, [] => []
  | k, x :: xs => (x / e.getD (k / stride) 0) :: divFlat e stride (k + 1) xs

/-- Multiplication counterpart of `divFlat` (the undo direction). -/
def mulFlat (e : List Rat) (stride : Nat) : Nat → List Rat → List Rat
  | _, [] => []
  | k, x :: xs => (x * e.getD (k / stride) 0) :: mulFlat e stride (k + 1) xs

/-- Division `old_data / exposure_time`: elementwise for a scalar; broadcast along
the first axis for a reshaped per-exposure array (the only array shapes the
call sites produce are `(N, 1, ..., 1)` against data `(N, ...)`). -/
def NDArr.divExp (a : NDArr) (x : BExp) : NDArr :=
  match x with
  | .scalarB t => ⟨a.shape, a.flat.map (fun q => q / t)⟩
  | .arrB b => ⟨a.shape, divFlat b.flat a.firstStride 0 a.flat⟩

/-- Multiplication `old_data * exposure_time`, same broadcasting as `NDArr.divExp`. -/
def NDArr.mulExp (a : NDArr) (x : BExp) : NDArr :=
  match x with
  | .scalarB t => ⟨a.shape, a.flat.map (fun q => q * t)⟩
  | .arrB b => ⟨a.shape, mulFlat b.flat a.firstStride 0 a.flat⟩

/-! ### Errors -/

inductive PyErr where
  | valueError (msg : String)
  | attributeError (msg : String)
  | nameError (missing : String)
deriving DecidableEq, Repr

def APPLY_EXPOSURE_TIME_ERROR : String :=
  "Exposure time correction has probably already been applied since the unit already includes inverse time. To apply exposure time correction anyway, set \x27force\x27 kwarg to True."

def UNDO_EXPOSURE_TIME_ERROR : String :=
  "Exposure time correction has probably already been undone since the unit does not include inverse time. To undo exposure time correction anyway, set \x27force\x27 kwarg to True."

def DIMENSION_ERROR : String :=
  "Raster dimensions must be 2 or 3. Dimensions=1"

def NONE_ATTRIBUTE_ERROR : String :=
  "\x27NoneType\x27 object has no attribute \x27array\x27"

/-! ### The pure correction functions (`raster.py` lines 689-754) -/

/-- Source `_calculate_exposure_time_correction(old_data_arrays, old_unit,
exposure_time, force)`: raise if `force is not True` and
`u.s in old_unit.decompose().bases`; otherwise divide every array by the
exposure time and return the arrays with `old_unit / u.s`. -/
def calculate_exposure_time_correction (old_data_arrays : List NDArr)
    (old_unit : SUnit) (exposure_time : BExp) (force : Bool) :
    Except PyErr (List NDArr × SUnit) :=
  if force = false ∧ old_unit.hasSecondBase then
    .error (.valueError APPLY_EXPOSURE_TIME_ERROR)
  else
    .ok (old_data_arrays.map (fun a => a.divExp exposure_time),
         old_unit.divSecond)

/-- Source `_uncalculate_exposure_time_correction(old_data_arrays, old_unit,
exposure_time, force)`: raise if `force is not True` and
`u.s in (old_unit * u.s).decompose().bases`; otherwise multiply every array
by the exposure time and return the arrays with `old_unit * u.s`. -/
def uncalculate_exposure_time_correction (old_data_arrays : List NDArr)
    (old_unit : SUnit) (exposure_time : BExp) (force : Bool) :
    Except PyErr (List NDArr × SUnit) :=
  if force = false ∧ old_unit.mulSecond.hasSecondBase then
    .error (.valueError UNDO_EXPOSURE_TIME_ERROR)
  else
    .ok (old_data_arrays.map (fun a => a.mulExp exposure_time),
         old_unit.mulSecond)

/-! ### Helper lemmas -/

theorem map_div_mul_cancel (t : Rat) (ht : t ≠ 0) :
    ∀ l : List Rat, (l.map (fun q => q / t)).map (fun q => q * t) = l := by
  intro l
  induction l with
  | nil => rfl
  | cons x xs ih => simp [ih, div_mul_cancel₀ _ ht]

theorem divSecond_mulSecond (u : SUnit) : u.divSecond.mulSecond = u := by
  cases u
  simp [SUnit.divSecond, SUnit.mulSecond]

theorem divExp_mulExp_scalar_cancel (t : Rat) (ht : t ≠ 0) (a : NDArr) :
    (a.divExp (.scalarB t)).mulExp (.scalarB t) = a := by
  cases a
  simp [NDArr.divExp, NDArr.mulExp, map_div_mul_cancel t ht]

/-! ### Claims C1-C3 -/

/-- Claim C1: for every set of data arrays, every unit lacking inverse
time, and every positive exposure time `t`, undoing the exposure-time
correction after applying it (both with `force=True`, the undo run on the
arrays and the unit `u / s` returned by the apply) gives back exactly the
original arrays and the original unit. -/
theorem claim_C1_roundtrip (arrays : List NDArr) (u : SUnit) (t : Rat)
    (ht : 0 < t) (hu : spec_lacks_inverse_time u) :
    ∃ mid,
      calculate_exposure_time_correction arrays u (.scalarB t) true
        = .ok (mid, u.divSecond)
      ∧ uncalculate_exposure_time_correction mid u.divSecond (.scalarB t) true
        = .ok (arrays, u) := by
  refine ⟨arrays.map (fun a => a.divExp (.scalarB t)), ?_, ?_⟩
  · simp [calculate_exposure_time_correction]
  · simp [uncalculate_exposure_time_correction, List.map_map,
      Function.comp_def, divExp_mulExp_scalar_cancel t ht.ne',
      divSecond_mulSecond]

/-- Witness for C1 at a concrete input: two arrays in a photon unit with
exposure time 2 round-trip exactly. -/
theorem claim_C1_roundtrip_witness :
    ∃ mid,
      calculate_exposure_time_correction
          [⟨[2], [1, 2]⟩, ⟨[2], [3, 4]⟩] ⟨0, [("ph", 1)]⟩ (.scalarB 2) true
        = .ok (mid, SUnit.divSecond ⟨0, [("ph", 1)]⟩)
      ∧ uncalculate_exposure_time_correction mid
          (SUnit.divSecond ⟨0, [("ph", 1)]⟩) (.scalarB 2) true
        = .ok ([⟨[2], [1, 2]⟩, ⟨[2], [3, 4]⟩], ⟨0, [("ph", 1)]⟩) :=
  claim_C1_roundtrip [⟨[2], [1, 2]⟩, ⟨[2], [3, 4]⟩] ⟨0, [("ph", 1)]⟩ 2
    (by norm_num) (by decide)

/-- In the unguarded case the apply direction divides every array and
divides the unit by seconds. -/
theorem calculate_not_guarded (arrays : List NDArr) (u : SUnit) (x : BExp)
    (force : Bool) (h : ¬(force = false ∧ u.hasSecondBase)) :
    calculate_exposure_time_correction arrays u x force
      = .ok (arrays.map (fun a => a.divExp x), u.divSecond) := by
  unfold calculate_exposure_time_correction
  simp [h]

/-- Claim C2: the apply direction raises exactly when `force` is false and
the seconds base unit appears in the decomposed input unit; otherwise every
array is divided elementwise by the exposure time and the result unit is
`unit / s` (so `force=True` on `photon/s` gives `photon/s/s`). -/
theorem claim_C2_apply_guard (arrays : List NDArr) (u : SUnit) (x : BExp)
    (force : Bool) :
    (calculate_exposure_time_correction arrays u x force
        = .error (.valueError APPLY_EXPOSURE_TIME_ERROR)
      ↔ force = false ∧ u.hasSecondBase)
    ∧ (¬(force = false ∧ u.hasSecondBase) →
        calculate_exposure_time_correction arrays u x force
          = .ok (arrays.map (fun a => a.divExp x), u.divSecond))
    ∧ (∀ t : Rat, ∀ a : NDArr,
        a.divExp (.scalarB t) = ⟨a.shape, a.flat.map (fun q => q / t)⟩) := by
  refine ⟨?_, ?_, fun t a => rfl⟩
  · unfold calculate_exposure_time_correction
    by_cases h : force = false ∧ u.hasSecondBase
    · simp [h]
    · simp [h]
  · intro h
    exact calculate_not_guarded arrays u x force h

/-- Claim C3 (amended): the undo direction raises exactly when `force` is
false and `unit * s` decomposed still contains the seconds base unit,
equivalently when the seconds exponent of the unit differs from `-1`;
otherwise every array is multiplied elementwise by the exposure time and
the result unit is `unit * s`. -/
theorem claim_C3_undo_guard (arrays : List NDArr) (u : SUnit) (x : BExp)
    (force : Bool) :
    (uncalculate_exposure_time_correction arrays u x force
        = .error (.valueError UNDO_EXPOSURE_TIME_ERROR)
      ↔ force = false ∧ u.mulSecond.hasSecondBase)
    ∧ (u.mulSecond.hasSecondBase ↔ u.secExp ≠ -1)
    ∧ (¬(force = false ∧ u.mulSecond.hasSecondBase) →
        uncalculate_exposure_time_correction arrays u x force
          = .ok (arrays.map (fun a => a.mulExp x), u.mulSecond)) := by
  refine ⟨?_, ?_, ?_⟩
  · unfold uncalculate_exposure_time_correction
    by_cases h : force = false ∧ u.mulSecond.hasSecondBase
    · simp [h]
    · simp [h]
  · cases u
    simp only [SUnit.hasSecondBase, SUnit.mulSecond]
    omega
  · intro h
    unfold uncalculate_exposure_time_correction
    simp [h]

/-- Counterexample for C3 as stated: for the unit `photon/s^2` (seconds
exponent `-2`), the guard of the undo direction fires with `force=False`
("correction already undone"), yet the unit does not lack inverse time, so
the claim's parenthetical "which holds exactly when the original unit
already lacked inverse time" is false. -/
theorem claim_C3_counterexample :
    uncalculate_exposure_time_correction [⟨[1], [3]⟩] ⟨-2, [("ph", 1)]⟩
        (.scalarB 1) false
      = .error (.valueError UNDO_EXPOSURE_TIME_ERROR)
    ∧ ¬spec_lacks_inverse_time ⟨-2, [("ph", 1)]⟩ := by
  constructor
  · rfl
  · decide

/-! ### The cube-level correction (`raster.py` lines 453-505)

`Raster.apply_exposure_time_correction` first fetches the exposure time in
seconds; if it is not a scalar it is reshaped keyed on
`len(self.dimensions)` (the data rank): rank 1 unchanged, rank 2 gains one
trailing singleton axis, rank 3 gains two, otherwise a `ValueError` is
raised.  Then the tuple `(self.data, self.uncertainty.array)` is built
(dereferencing `uncertainty`) and handed with the unit and the reshaped
exposure time to the pure correction function selected by `undo`. -/

structure Raster where
  data : NDArr
  uncertainty : Option NDArr
  unit : SUnit
  exposure_time_s : ExpTime
deriving DecidableEq, Repr

/-- The rank-keyed reshape of the exposure time (`raster.py` lines
483-493): a scalar passes through, a per-exposure array becomes an array of
shape `(N)`, `(N,1)` or `(N,1,1)` for data rank 1, 2 or 3, and any other
rank raises the dimension `ValueError`. -/
def reshape_exposure_time (rank : Nat) : ExpTime → Except PyErr BExp
  | .scalarT t => .ok (.scalarB t)
  | .perExposure e =>
    if rank = 1 then .ok (.arrB ⟨[e.length], e⟩)
    else if rank = 2 then .ok (.arrB ⟨[e.length, 1], e⟩)
    else if rank = 3 then .ok (.arrB ⟨[e.length, 1, 1], e⟩)
    else .error (.valueError DIMENSION_ERROR)

/-- Source `Raster.apply_exposure_time_correction(undo, force)`, returning the new
data array, the new uncertainty array and the new unit of the `Raster` the
code constructs from them. -/
def Raster.apply_exposure_time_correction (c : Raster) (undo force : Bool) :
    Except PyErr (NDArr × NDArr × SUnit) :=
  match reshape_exposure_time c.data.rank c.exposure_time_s with
  | .error e => .error e
  | .ok x =>
    match c.uncertainty with
    | none => .error (.attributeError NONE_ATTRIBUTE_ERROR)
    | some unc =>
      match (if undo then
               uncalculate_exposure_time_correction [c.data, unc] c.unit x force
             else
               calculate_exposure_time_correction [c.data, unc] c.unit x force) with
      | .error e => .error e
      | .ok (arrs, newUnit) => .ok (arrs.getD 0 c.data, arrs.getD 1 unc, newUnit)

/-! ### Claims C8-C10 -/

/-- Claim C8: with a non-scalar (per-exposure) exposure-time array, the
cube-level correction is keyed on the data rank: rank 1 reshapes nothing,
rank 2 inserts one trailing singleton axis, rank 3 inserts two, and every
rank of 4 or more fails with the dimension `ValueError` (for both
directions and regardless of `force`). -/
theorem claim_C8_rank_rule (c : Raster) (e : List Rat)
    (he : c.exposure_time_s = .perExposure e) :
    (∀ undo force : Bool, 4 ≤ c.data.rank →
        c.apply_exposure_time_correction undo force
          = .error (.valueError DIMENSION_ERROR))
    ∧ (c.data.rank = 1 →
        reshape_exposure_time c.data.rank c.exposure_time_s
          = .ok (.arrB ⟨[e.length], e⟩))
    ∧ (c.data.rank = 2 →
        reshape_exposure_time c.data.rank c.exposure_time_s
          = .ok (.arrB ⟨[e.length, 1], e⟩))
    ∧ (c.data.rank = 3 →
        reshape_exposure_time c.data.rank c.exposure_time_s
          = .ok (.arrB ⟨[e.length, 1, 1], e⟩)) := by
  refine ⟨?_, ?_, ?_, ?_⟩
  · intro undo force hr
    have hre : reshape_exposure_time c.data.rank c.exposure_time_s
        = .error (.valueError DIMENSION_ERROR) := by
      rw [he]
      unfold reshape_exposure_time
      have h1 : c.data.rank ≠ 1 := by omega
      have h2 : c.data.rank ≠ 2 := by omega
      have h3 : c.data.rank ≠ 3 := by omega
      simp [h1, h2, h3]
    unfold Raster.apply_exposure_time_correction
    rw [hre]
  · intro hr; rw [he, hr]; rfl
  · intro hr; rw [he, hr]; rfl
  · intro hr; rw [he, hr]; rfl

/-- Witness for C8: a rank-4 cube with a per-exposure exposure time fails
with the dimension error. -/
theorem claim_C8_rank_rule_witness :
    Raster.apply_exposure_time_correction
        ⟨⟨[1, 1, 1, 1], [5]⟩, some ⟨[1, 1, 1, 1], [1]⟩, ⟨0, []⟩,
          .perExposure [2]⟩ false true
      = .error (.valueError DIMENSION_ERROR) :=
  (claim_C8_rank_rule
      ⟨⟨[1, 1, 1, 1], [5]⟩, some ⟨[1, 1, 1, 1], [1]⟩, ⟨0, []⟩,
        .perExposure [2]⟩ [2] rfl).1 false true (by decide)

theorem divFlat_getD (e : List Rat) (s : Nat) :
    ∀ (l : List Rat) (k idx : Nat), idx < l.length →
      (divFlat e s k l).getD idx 0 = l.getD idx 0 / e.getD ((k + idx) / s) 0 := by
  intro l
  induction l with
  | nil => intro k idx h; simp at h
  | cons x xs ih =>
    intro k idx h
    cases idx with
    | zero => simp [divFlat]
    | succ n =>
      simp only [divFlat, List.getD_cons_succ]
      rw [ih (k + 1) n (by simpa using h)]
      have harg : k + 1 + n = k + (n + 1) := by omega
      rw [harg]

/-- Claim C9: for 2-D data of shape `(n, m)` and a length-`n` per-exposure
exposure-time array, the applied correction divides entry `(i, j)` (flat
position `i*m + j` in C order) by `exposure[i]`: the exposure array is
aligned with the first data axis. -/
theorem claim_C9_broadcast (n m : Nat) (flat e : List Rat) (unc : NDArr)
    (u : SUnit) (force : Bool) (i j : Nat)
    (hflat : flat.length = n * m) (he : e.length = n)
    (hi : i < n) (hj : j < m)
    (hguard : force = true ∨ ¬u.hasSecondBase) :
    ∃ newData newUnc newUnit,
      Raster.apply_exposure_time_correction
          ⟨⟨[n, m], flat⟩, some unc, u, .perExposure e⟩ false force
        = .ok (newData, newUnc, newUnit)
      ∧ newData.flat.getD (i * m + j) 0
          = flat.getD (i * m + j) 0 / e.getD i 0 := by
  have hng : ¬(force = false ∧ u.hasSecondBase) := by
    rcases hguard with h | h
    · simp [h]
    · simp [h]
  have hx : reshape_exposure_time (NDArr.rank ⟨[n, m], flat⟩)
      (.perExposure e) = .ok (.arrB ⟨[e.length, 1], e⟩) := rfl
  refine ⟨(NDArr.divExp ⟨[n, m], flat⟩ (.arrB ⟨[e.length, 1], e⟩)),
      (unc.divExp (.arrB ⟨[e.length, 1], e⟩)), u.divSecond, ?_, ?_⟩
  · unfold Raster.apply_exposure_time_correction
    rw [hx]
    simp only [Bool.false_eq_true, if_false]
    rw [calculate_not_guarded [⟨[n, m], flat⟩, unc] u
        (.arrB ⟨[e.length, 1], e⟩) force hng]
    rfl
  · have hm : 0 < m := Nat.lt_of_le_of_lt (Nat.zero_le j) hj
    have hidx : i * m + j < flat.length := by
      rw [hflat]
      calc i * m + j < i * m + m := by omega
        _ = (i + 1) * m := by ring
        _ ≤ n * m := Nat.mul_le_mul_right m hi
    have hstride : NDArr.firstStride ⟨[n, m], flat⟩ = m := by
      simp [NDArr.firstStride]
    show (divFlat e (NDArr.firstStride ⟨[n, m], flat⟩) 0 flat).getD
        (i * m + j) 0 = _
    rw [hstride, divFlat_getD e m flat 0 (i * m + j) hidx]
    congr 2
    rw [Nat.zero_add, Nat.add_comm (i * m) j, Nat.add_mul_div_right j i hm,
      Nat.div_eq_of_lt hj]
    omega

/-- Witness for C9: a concrete 2x2 cube with exposure array `[1, 2]`; the
entry at `(1, 0)` (flat position 2) becomes `3 / 2`. -/
theorem claim_C9_broadcast_witness :
    ∃ newData newUnc newUnit,
      Raster.apply_exposure_time_correction
          ⟨⟨[2, 2], [1, 2, 3, 4]⟩, some ⟨[2, 2], [0, 0, 0, 0]⟩, ⟨0, []⟩,
            .perExposure [1, 2]⟩ false false
        = .ok (newData, newUnc, newUnit)
      ∧ newData.flat.getD 2 0 = (3 : Rat) / 2 :=
  claim_C9_broadcast 2 2 [1, 2, 3, 4] [1, 2] ⟨[2, 2], [0, 0, 0, 0]⟩ ⟨0, []⟩
    false 1 0 (by decide) (by decide) (by decide) (by decide)
    (Or.inr (by decide))

/-- Claim C10 (amended): for every cube whose uncertainty is `None` and
whose exposure-time reshape step succeeds (scalar exposure time, or data
rank at most 3), the cube-level correction fails by dereferencing
`uncertainty.array` — an `AttributeError` — in both directions and
regardless of `force`, before any guard outcome or data transformation. -/
theorem claim_C10_uncertainty_precondition (c : Raster) (undo force : Bool)
    (hu : c.uncertainty = none)
    (hx : ∃ x, reshape_exposure_time c.data.rank c.exposure_time_s = .ok x) :
    c.apply_exposure_time_correction undo force
      = .error (.attributeError NONE_ATTRIBUTE_ERROR) := by
  obtain ⟨x, hx⟩ := hx
  unfold Raster.apply_exposure_time_correction
  rw [hx, hu]

/-- Witness for C10: a rank-2 cube with `uncertainty = None` fails with the
`NoneType` attribute error. -/
theorem claim_C10_uncertainty_precondition_witness :
    Raster.apply_exposure_time_correction
        ⟨⟨[1, 1], [7]⟩, none, ⟨0, []⟩, .perExposure [2]⟩ true false
      = .error (.attributeError NONE_ATTRIBUTE_ERROR) :=
  claim_C10_uncertainty_precondition
    ⟨⟨[1, 1], [7]⟩, none, ⟨0, []⟩, .perExposure [2]⟩ true false rfl
    ⟨.arrB ⟨[1, 1], [2]⟩, rfl⟩

/-- Counterexample for C10 as stated: a rank-4 cube with `uncertainty =
None` and a per-exposure exposure time does not fail at the
`uncertainty.array` dereference — the rank-keyed reshape raises the
dimension `ValueError` first, so the failure claimed for every cube with
absent uncertainty happens elsewhere for this one. -/
theorem claim_C10_counterexample :
    Raster.apply_exposure_time_correction
        ⟨⟨[1, 1, 1, 1], [5]⟩, none, ⟨0, []⟩, .perExposure [2]⟩ false false
      = .error (.valueError DIMENSION_ERROR)
    ∧ PyErr.valueError DIMENSION_ERROR
        ≠ PyErr.attributeError NONE_ATTRIBUTE_ERROR := by
  exact ⟨rfl, by decide⟩

/-! ### Supported coordinate names (`raster.py` lines 22-45)

Python builds each table as `base`, then `+= [name.upper() ...]`, then
`+= [name.capitalize() ...]` over the already-extended list.
`str.capitalize` upper-cases the first character and lower-cases the rest. -/

def pyUpper (s : String) : String := String.mk (s.data.map Char.toUpper)

def pyCapitalize (s : String) : String :=
  match s.data with
  | [] => ""
  | c :: cs => String.mk (c.toUpper :: cs.map Char.toLower)

def expandSupportedNames (base : List String) : List String :=
  let l := base ++ base.map pyUpper
  l ++ l.map pyCapitalize

def SUPPORTED_LONGITUDE_NAMES : List String :=
  expandSupportedNames [".lon", "longitude", "lon"]

def SUPPORTED_LATITUDE_NAMES : List String :=
  expandSupportedNames [".lat", "latitude", "lat"]

def SUPPORTED_SPECTRAL_NAMES : List String :=
  expandSupportedNames
    ["em.wl", "em.energy", "em.freq", "wavelength", "energy",
     "frequency", "freq", "lambda"]

def SUPPORTED_TIME_NAMES : List String := expandSupportedNames ["time"]

def SUPPORTED_EXPOSURE_NAMES : List String :=
  expandSupportedNames
    ["exposure time", "exposure_time", "exposure times", "exposure_times",
     "exp time", "exp_time", "exp times", "exp_times"]

def AXIS_NOT_FOUND_ERROR : String :=
  " axis not found. If in extra_coords, axis name must be supported: "

/-- Python `needle in hay` for strings: contiguous substring containment. -/
def charsContain (needle : List Char) : List Char → Bool
  | [] => needle.isEmpty
  | c :: rest => needle.isPrefixOf (c :: rest) || charsContain needle rest

def strContains (hay needle : String) : Bool := charsContain needle.data hay.data

/-! ### `Raster._find_axis_name` (`raster.py` lines 650-680) -/

inductive AxisLoc where
  | wcs
  | extra_coords
deriving DecidableEq, Repr

/-- The extra-coordinate key check: `supported_names[i] in extra_coord_keys`
when the cube has extra coordinates, never satisfied when it has none. -/
def extra_has (extra_coord_keys : Option (List String)) (n : String) : Bool :=
  match extra_coord_keys with
  | some keys => keys.contains n
  | none => false

/-- Source `Raster._find_axis_name(supported_names)`: walk the supported names in
declared order; for each, if exactly one entry of
`world_axis_physical_types` contains it as a substring, bind that world
type with location `wcs` and stop; otherwise, if the name is an exact
member of the extra-coordinate keys, bind the name itself with location
`extra_coords` and stop; if no supported name binds, return `none`. -/
def find_axis_name (world_axis_physical_types : List String)
    (extra_coord_keys : Option (List String)) :
    List String → Option (String × AxisLoc)
  | [] => none
  | n :: rest =>
    let hits := world_axis_physical_types.filter fun wt => strContains wt n
    if hits.length = 1 then some (hits.getD 0 "", .wcs)
    else if extra_has extra_coord_keys n then some (n, .extra_coords)
    else find_axis_name world_axis_physical_types extra_coord_keys rest

/-- A supported name that matches nothing: it is not contained in exactly
one world-type label and is not an extra-coordinate key. -/
def synonym_matches_nothing (wts : List String)
    (ek : Option (List String)) (n : String) : Prop :=
  (wts.filter fun wt => strContains wt n).length ≠ 1 ∧ extra_has ek n = false

instance (wts : List String) (ek : Option (List String)) (n : String) :
    Decidable (synonym_matches_nothing wts ek n) :=
  inferInstanceAs (Decidable (_ ∧ _))

/-! ### The coordinate side of a cube and its named-role accessors
(`raster.py` lines 362-451, 682-686)

The WCS world-coordinate evaluator `axis_world_coords` of the external
cube library is modelled as a lookup table from world-type label to the
coordinate values along that axis; `extra_coords` maps a key to its stored
`"value"` field. -/

structure CoordCube where
  world_axis_physical_types : List String
  extra_coords : Option (List (String × List Rat))
  wcs_world_coords : List (String × List Rat)
deriving DecidableEq, Repr

def lookupTable (t : List (String × List Rat)) (k : String) : List Rat :=
  ((t.find? fun p => p.1 == k).map Prod.snd).getD []

def CoordCube.extraKeys (c : CoordCube) : Option (List String) :=
  c.extra_coords.map (List.map Prod.fst)

/-- Source `Raster._get_axis_coord(axis_name, coord_loc)`. -/
def CoordCube.get_axis_coord (c : CoordCube) (axis_name : String)
    (coord_loc : AxisLoc) : List Rat :=
  match coord_loc with
  | .wcs => lookupTable c.wcs_world_coords axis_name
  | .extra_coords => lookupTable (c.extra_coords.getD []) axis_name

def CoordCube.spectral_name (c : CoordCube) : Option (String × AxisLoc) :=
  find_axis_name c.world_axis_physical_types c.extraKeys SUPPORTED_SPECTRAL_NAMES

def CoordCube.time_name (c : CoordCube) : Option (String × AxisLoc) :=
  find_axis_name c.world_axis_physical_types c.extraKeys SUPPORTED_TIME_NAMES

def CoordCube.exposure_time_name (c : CoordCube) : Option (String × AxisLoc) :=
  find_axis_name c.world_axis_physical_types c.extraKeys SUPPORTED_EXPOSURE_NAMES

def CoordCube.longitude_name (c : CoordCube) : Option (String × AxisLoc) :=
  find_axis_name c.world_axis_physical_types c.extraKeys SUPPORTED_LONGITUDE_NAMES

def CoordCube.latitude_name (c : CoordCube) : Option (String × AxisLoc) :=
  find_axis_name c.world_axis_physical_types c.extraKeys SUPPORTED_LATITUDE_NAMES

/-- Python repr of a list of strings, as an f-string interpolates it. -/
def pyListRepr (l : List String) : String :=
  "[" ++ String.intercalate ", " (l.map fun s => "\x27" ++ s ++ "\x27") ++ "]"

/-- Accessor `Raster.spectral`: absent binding raises
`ValueError` with the role name, the axis-not-found text and the full
supported-name list. -/
def CoordCube.spectral (c : CoordCube) : Except PyErr (List Rat) :=
  match c.spectral_name with
  | none => .error (.valueError
      ("Spectral" ++ AXIS_NOT_FOUND_ERROR ++ pyListRepr SUPPORTED_SPECTRAL_NAMES))
  | some (n, loc) => .ok (c.get_axis_coord n loc)

/-- Accessor `Raster.time`: on an absent binding the error f-string names the
undefined global `SUPPORTED_TIMES_NAMES`, so a `NameError` escapes instead
of the intended `ValueError`. -/
def CoordCube.time (c : CoordCube) : Except PyErr (List Rat) :=
  match c.time_name with
  | none => .error (.nameError "SUPPORTED_TIMES_NAMES")
  | some (n, loc) => .ok (c.get_axis_coord n loc)

/-- Accessor `Raster.exposure_time`. -/
def CoordCube.exposure_time (c : CoordCube) : Except PyErr (List Rat) :=
  match c.exposure_time_name with
  | none => .error (.valueError
      ("Exposure time" ++ AXIS_NOT_FOUND_ERROR ++ pyListRepr SUPPORTED_EXPOSURE_NAMES))
  | some (n, loc) => .ok (c.get_axis_coord n loc)

/-- Accessor `Raster.lon`. -/
def CoordCube.lon (c : CoordCube) : Except PyErr (List Rat) :=
  match c.longitude_name with
  | none => .error (.valueError
      ("Longitude" ++ AXIS_NOT_FOUND_ERROR ++ pyListRepr SUPPORTED_LONGITUDE_NAMES))
  | some (n, loc) => .ok (c.get_axis_coord n loc)

/-- Accessor `Raster.lat`: on an absent binding the error f-string names the
undefined global `SUPPORTED_LATITUDE_NAME` (missing final `S`), so a
`NameError` escapes instead of the intended `ValueError`. -/
def CoordCube.lat (c : CoordCube) : Except PyErr (List Rat) :=
  match c.latitude_name with
  | none => .error (.nameError "SUPPORTED_LATITUDE_NAME")
  | some (n, loc) => .ok (c.get_axis_coord n loc)

/-- Claim C4 (code bug evidence): on a cube whose only world type is
`em.wl` and which has no extra coordinates, `spectral` returns the bound
values and `lon` fails with the `ValueError` carrying the role name and
the full supported-name list, as the claim states — but `time` and `lat`,
whose bindings are also absent, fail with a `NameError` on the misspelled
globals `SUPPORTED_TIMES_NAMES` and `SUPPORTED_LATITUDE_NAME` instead of
the claimed axis-not-found error. -/
theorem claim_C4_accessor_eval :
    CoordCube.time ⟨["em.wl"], none, [("em.wl", [5])]⟩
      = .error (.nameError "SUPPORTED_TIMES_NAMES")
    ∧ CoordCube.lat ⟨["em.wl"], none, [("em.wl", [5])]⟩
      = .error (.nameError "SUPPORTED_LATITUDE_NAME")
    ∧ CoordCube.spectral ⟨["em.wl"], none, [("em.wl", [5])]⟩ = .ok [5]
    ∧ CoordCube.lon ⟨["em.wl"], none, [("em.wl", [5])]⟩
      = .error (.valueError
          ("Longitude" ++ AXIS_NOT_FOUND_ERROR
            ++ pyListRepr SUPPORTED_LONGITUDE_NAMES)) := by
  exact ⟨rfl, rfl, rfl, rfl⟩

/-- Claim C5: first-match characterization of `Raster._find_axis_name`.
The supported names are scanned in declared order and, for each one, the
primary system is checked before the extra-coordinate table: the scan binds
`(wt, wcs)` exactly when some supported name is preceded only by names
matching nothing and is contained in exactly one world-type label `wt`; it
binds `(n, extra_coords)` exactly when the name `n` is preceded only by
names matching nothing, is not contained in exactly one world-type label,
and is an exact member of the extra-coordinate keys (so the primary system
wins whenever both would match); it returns no binding exactly when every
supported name matches nothing. -/
theorem claim_C5_resolution (wts : List String) (ek : Option (List String)) :
    ∀ names : List String,
    (find_axis_name wts ek names = none ↔
      ∀ n ∈ names, synonym_matches_nothing wts ek n)
    ∧ (∀ res : String,
        find_axis_name wts ek names = some (res, .wcs) ↔
        ∃ pre n post, names = pre ++ n :: post
          ∧ (∀ m ∈ pre, synonym_matches_nothing wts ek m)
          ∧ (wts.filter fun wt => strContains wt n) = [res])
    ∧ (∀ res : String,
        find_axis_name wts ek names = some (res, .extra_coords) ↔
        ∃ pre post, names = pre ++ res :: post
          ∧ (∀ m ∈ pre, synonym_matches_nothing wts ek m)
          ∧ (wts.filter fun wt => strContains wt res).length ≠ 1
          ∧ extra_has ek res = true) := by
  intro names
  induction names with
  | nil =>
    refine ⟨by simp [find_axis_name], ?_, ?_⟩
    · intro res
      simp only [find_axis_name]
      constructor
      · intro h; exact absurd h (by simp)
      · rintro ⟨pre, n, post, heq, -, -⟩
        exact absurd heq (by cases pre <;> simp)
    · intro res
      simp only [find_axis_name]
      constructor
      · intro h; exact absurd h (by simp)
      · rintro ⟨pre, post, heq, -, -⟩
        exact absurd heq (by cases pre <;> simp)
  | cons n rest ih =>
    by_cases h1 : (wts.filter fun wt => strContains wt n).length = 1
    · obtain ⟨w, hw⟩ := List.length_eq_one.mp h1
      have hfind : find_axis_name wts ek (n :: rest) = some (w, .wcs) := by
        simp only [find_axis_name, h1, if_true, hw, List.getD]
        rfl
      refine ⟨?_, ?_, ?_⟩
      · rw [hfind]
        constructor
        · intro h; exact absurd h (by simp)
        · intro hall
          exact absurd (hall n (by simp)).1 (by simp [h1])
      · intro res
        rw [hfind]
        constructor
        · intro h
          obtain ⟨rfl, -⟩ : w = res ∧ AxisLoc.wcs = AxisLoc.wcs := by
            simpa using h
          exact ⟨[], n, rest, by simp, by simp, hw⟩
        · rintro ⟨pre, n', post, heq, hpre, hfil⟩
          cases pre with
          | nil =>
            simp only [List.nil_append, List.cons.injEq] at heq
            obtain ⟨rfl, rfl⟩ := heq
            rw [hw] at hfil
            simp only [List.cons.injEq] at hfil
            rw [hfil.1]
          | cons p pre' =>
            simp only [List.cons_append, List.cons.injEq] at heq
            obtain ⟨rfl, -⟩ := heq
            exact absurd (hpre n (by simp)).1 (by simp [h1])
      · intro res
        rw [hfind]
        constructor
        · intro h; exact absurd h (by simp)
        · rintro ⟨pre, post, heq, hpre, hfil, -⟩
          cases pre with
          | nil =>
            simp only [List.nil_append, List.cons.injEq] at heq
            obtain ⟨rfl, -⟩ := heq
            exact absurd h1 hfil
          | cons p pre' =>
            simp only [List.cons_append, List.cons.injEq] at heq
            obtain ⟨rfl, -⟩ := heq
            exact absurd (hpre n (by simp)).1 (by simp [h1])
    · by_cases h2 : extra_has ek n = true
      · have hfind : find_axis_name wts ek (n :: rest)
            = some (n, .extra_coords) := by
          simp only [find_axis_name, h1, if_false, h2, if_true]
        refine ⟨?_, ?_, ?_⟩
        · rw [hfind]
          constructor
          · intro h; exact absurd h (by simp)
          · intro hall
            have := (hall n (by simp)).2
            rw [h2] at this
            exact absurd this (by simp)
        · intro res
          rw [hfind]
          constructor
          · intro h; exact absurd h (by simp)
          · rintro ⟨pre, n', post, heq, hpre, hfil⟩
            cases pre with
            | nil =>
              simp only [List.nil_append, List.cons.injEq] at heq
              obtain ⟨rfl, rfl⟩ := heq
              exact absurd (by rw [hfil]; rfl) h1
            | cons p pre' =>
              simp only [List.cons_append, List.cons.injEq] at heq
              obtain ⟨rfl, -⟩ := heq
              have := (hpre n (by simp)).2
              rw [h2] at this
              exact absurd this (by simp)
        · intro res
          rw [hfind]
          constructor
          · intro h
            obtain ⟨rfl, -⟩ : n = res ∧ AxisLoc.extra_coords = AxisLoc.extra_coords := by
              simpa using h
            exact ⟨[], rest, by simp, by simp, h1, h2⟩
          · rintro ⟨pre, post, heq, hpre, hfil, hextra⟩
            cases pre with
            | nil =>
              simp only [List.nil_append, List.cons.injEq] at heq
              obtain ⟨rfl, -⟩ := heq
              rfl
            | cons p pre' =>
              simp only [List.cons_append, List.cons.injEq] at heq
              obtain ⟨rfl, -⟩ := heq
              have := (hpre n (by simp)).2
              rw [h2] at this
              exact absurd this (by simp)
      · have hnothing : synonym_matches_nothing wts ek n :=
          ⟨h1, by simpa using h2⟩
        have hfind : find_axis_name wts ek (n :: rest)
            = find_axis_name wts ek rest := by
          simp only [find_axis_name, h1, if_false]
          rw [if_neg h2]
        refine ⟨?_, ?_, ?_⟩
        · rw [hfind, ih.1]
          simp [hnothing]
        · intro res
          rw [hfind, ih.2.1 res]
          constructor
          · rintro ⟨pre, n', post, heq, hpre, hfil⟩
            refine ⟨n :: pre, n', post, by rw [heq]; rfl, ?_, hfil⟩
            intro m hm
            rcases List.mem_cons.mp hm with rfl | hm
            · exact hnothing
            · exact hpre m hm
          · rintro ⟨pre, n', post, heq, hpre, hfil⟩
            cases pre with
            | nil =>
              simp only [List.nil_append, List.cons.injEq] at heq
              obtain ⟨rfl, rfl⟩ := heq
              exact absurd (by rw [hfil]; rfl) h1
            | cons p pre' =>
              simp only [List.cons_append, List.cons.injEq] at heq
              obtain ⟨rfl, hrest⟩ := heq
              exact ⟨pre', n', post, hrest, fun m hm => hpre m (by simp [hm]), hfil⟩
        · intro res
          rw [hfind, ih.2.2 res]
          constructor
          · rintro ⟨pre, post, heq, hpre, hfil, hextra⟩
            refine ⟨n :: pre, post, by rw [heq]; rfl, ?_, hfil, hextra⟩
            intro m hm
            rcases List.mem_cons.mp hm with rfl | hm
            · exact hnothing
            · exact hpre m hm
          · rintro ⟨pre, post, heq, hpre, hfil, hextra⟩
            cases pre with
            | nil =>
              simp only [List.nil_append, List.cons.injEq] at heq
              obtain ⟨rfl, -⟩ := heq
              exact absurd hextra (by simp [h2])
            | cons p pre' =>
              simp only [List.cons_append, List.cons.injEq] at heq
              obtain ⟨rfl, hrest⟩ := heq
              exact ⟨pre', post, hrest, fun m hm => hpre m (by simp [hm]), hfil, hextra⟩

/-! ### RasterSequence slicing bookkeeping
(`spectrogram_sequence.py` lines 262-308)

A tuple index entry is either a scalar integer (`numbers.Integral`) or a
range (`slice`); only this distinction matters to the axis-type label
bookkeeping, so the slice endpoints are not carried. -/

inductive PyIndex where
  | intIdx (n : Int)
  | slc
deriving DecidableEq, Repr

def PyIndex.isScalar : PyIndex → Bool
  | .intIdx _ => true
  | .slc => false

/-- numpy boolean-mask selection `labels[np.array(mask)]` (the call site
always builds a mask of the same length as the labels). -/
def boolMaskSelect : List String → List Bool → List String
  | [], _ => []
  | _, [] => []
  | l :: ls, b :: bs =>
    if b then l :: boolMaskSelect ls bs else boolMaskSelect ls bs

/-- Source `_slice_scan_axis_types(single_scan_axes_types, item)`: keep the label
positions whose item entry is not an integer, padding the mask with `True`
for positions the item does not address. -/
def slice_scan_axis_types (single_scan_axes_types : List String)
    (item : List PyIndex) : List String :=
  let not_int_axis_items :=
    (item.map fun axis_item => !axis_item.isScalar)
      ++ List.replicate (single_scan_axes_types.length - item.length) true
  boolMaskSelect single_scan_axes_types not_int_axis_items

/-- Whether position `j` of the label array is addressed by a scalar
integer entry of the item (positions beyond the item are unaddressed). -/
def addressedByScalar (item : List PyIndex) (j : Nat) : Bool :=
  (item.getD j .slc).isScalar

/-- Modelled from the spec: the label array re-sliced by "dropping exactly
the positions addressed by scalar integer indices and keeping every
position not explicitly addressed". -/
def spec_slice_labels_from (item : List PyIndex) :
    Nat → List String → List String
  | _, [] => []
  | j, l :: ls =>
    if addressedByScalar item j then spec_slice_labels_from item (j + 1) ls
    else l :: spec_slice_labels_from item (j + 1) ls

def spec_slice_labels (labels : List String) (item : List PyIndex) :
    List String :=
  spec_slice_labels_from item 0 labels

theorem spec_slice_labels_from_shift (i : PyIndex) (item : List PyIndex) :
    ∀ (ls : List String) (j : Nat),
      spec_slice_labels_from (i :: item) (j + 1) ls
        = spec_slice_labels_from item j ls := by
  intro ls
  induction ls with
  | nil => intro j; rfl
  | cons l ls ih =>
    intro j
    simp only [spec_slice_labels_from, addressedByScalar, List.getD_cons_succ,
      ih (j + 1)]

theorem spec_slice_labels_from_nil_item :
    ∀ (ls : List String) (j : Nat),
      spec_slice_labels_from [] j ls = ls := by
  intro ls
  induction ls with
  | nil => intro j; rfl
  | cons l ls ih =>
    intro j
    simp [spec_slice_labels_from, addressedByScalar, PyIndex.isScalar, ih (j + 1)]

theorem boolMaskSelect_all_true :
    ∀ ls : List String, boolMaskSelect ls (List.replicate ls.length true) = ls := by
  intro ls
  induction ls with
  | nil => rfl
  | cons l ls ih => simp [boolMaskSelect, List.replicate, ih]

/-- The code's mask-based label slicing agrees with the spec's
drop-scalar-addressed-positions rule whenever the item does not address
more axes than there are labels. -/
theorem slice_scan_axis_types_eq_spec :
    ∀ (item : List PyIndex) (labels : List String),
      item.length ≤ labels.length →
      slice_scan_axis_types labels item = spec_slice_labels labels item := by
  intro item
  induction item with
  | nil =>
    intro labels _
    simp only [slice_scan_axis_types, List.map_nil, List.nil_append,
      List.length_nil, Nat.sub_zero, spec_slice_labels,
      spec_slice_labels_from_nil_item, boolMaskSelect_all_true]
  | cons i item ih =>
    intro labels hlen
    cases labels with
    | nil => simp at hlen
    | cons l ls =>
      simp only [List.length_cons, Nat.succ_le_succ_iff] at hlen
      simp only [slice_scan_axis_types, List.map_cons, List.cons_append,
        List.length_cons, Nat.succ_sub_succ, boolMaskSelect,
        spec_slice_labels, spec_slice_labels_from, addressedByScalar,
        List.getD_cons_zero, spec_slice_labels_from_shift]
      have hrec := ih ls hlen
      simp only [slice_scan_axis_types, spec_slice_labels] at hrec
      cases hsc : i.isScalar <;> simp [hsc, hrec]

/-- The outcome of slicing the as-raster view with a tuple index, as far as
the claims are concerned: a single cube (the sequence axis received a
scalar), a plain `SpectrogramSequence` with its `common_axis`, a
`RasterSequence` with its `common_axis` and re-sliced per-axis-type label
array, or an uncaught `IndexError`. -/
inductive SliceOutcome where
  | cube
  | plainSeq (commonAxis : Option Nat)
  | rasterSeq (commonAxis : Option Nat) (labels : List String)
  | indexError
deriving DecidableEq, Repr

/-- Source `_SequenceSlicer.__getitem__(item)` for a `RasterSequence` with
`common_axis = c` and per-axis-type labels `labels`, for a tuple `item`.
The delegated base slicing is modelled from the spec: indexing the
sequence axis with a scalar yields a single cube (not a sequence of the
same class), any other first entry keeps a sequence of the same class.
After that the source checks `len(item) > common_axis` and branches on
whether `item[1:][common_axis]` is a scalar integer — an access that
raises `IndexError` when `item[1:]` is too short — demoting to a plain
`SpectrogramSequence` with `common_axis=None`, or re-slicing the label
array with `_slice_scan_axis_types(labels, item[1:])`. -/
def slice_as_raster_getitem (c : Nat) (labels : List String)
    (item : List PyIndex) : SliceOutcome :=
  match item with
  | [] => .rasterSeq (some c) (slice_scan_axis_types labels [])
  | fst :: rest =>
    if fst.isScalar then .cube
    else if c < (fst :: rest).length then
      if h : c < rest.length then
        if (rest.getD c .slc).isScalar then .plainSeq none
        else .rasterSeq (some c) (slice_scan_axis_types labels rest)
      else .indexError
    else .rasterSeq (some c) (slice_scan_axis_types labels rest)

/-- Claim C6 (amended): for a `RasterSequence` with `common_axis = c`,
slicing the as-raster view with a tuple index behaves as follows.  A
scalar first (sequence-axis) entry yields a single cube.  Otherwise, when
the entry at the slit-step position `c` of the cube part of the tuple
exists: if it is a scalar integer the result is demoted to a plain
`SpectrogramSequence` with `common_axis` cleared to `None`; if it is not,
the result stays a `RasterSequence` and the label array is re-sliced by
dropping exactly the positions addressed by scalar integer indices and
keeping every position not explicitly addressed.  When the cube part of
the tuple is exactly `c` entries long, an `IndexError` escapes; when it is
shorter than that, the result stays a `RasterSequence` with the re-sliced
label array. -/
theorem claim_C6_slicing (c : Nat) (labels : List String) (fst : PyIndex)
    (rest : List PyIndex) (hlen : rest.length ≤ labels.length) :
    (fst.isScalar = true →
      slice_as_raster_getitem c labels (fst :: rest) = .cube)
    ∧ (fst.isScalar = false → ∀ h : c < rest.length,
        (rest.getD c .slc).isScalar = true →
        slice_as_raster_getitem c labels (fst :: rest) = .plainSeq none)
    ∧ (fst.isScalar = false → ∀ h : c < rest.length,
        (rest.getD c .slc).isScalar = false →
        slice_as_raster_getitem c labels (fst :: rest)
          = .rasterSeq (some c) (spec_slice_labels labels rest))
    ∧ (fst.isScalar = false → rest.length = c →
        slice_as_raster_getitem c labels (fst :: rest) = .indexError)
    ∧ (fst.isScalar = false → rest.length < c →
        slice_as_raster_getitem c labels (fst :: rest)
          = .rasterSeq (some c) (spec_slice_labels labels rest)) := by
  refine ⟨?_, ?_, ?_, ?_, ?_⟩
  · intro hs
    simp [slice_as_raster_getitem, hs]
  · intro hs h hscalar
    have hsc : rest[c].isScalar = true := by
      rwa [List.getD_eq_getElem?_getD, List.getElem?_eq_getElem h,
        Option.getD_some] at hscalar
    have hc : c < rest.length + 1 := by omega
    simp [slice_as_raster_getitem, hs, hc, h, hsc]
  · intro hs h hscalar
    have hsc : rest[c].isScalar = false := by
      rwa [List.getD_eq_getElem?_getD, List.getElem?_eq_getElem h,
        Option.getD_some] at hscalar
    have hc : c < rest.length + 1 := by omega
    simp [slice_as_raster_getitem, hs, hc, h, hsc,
      slice_scan_axis_types_eq_spec rest labels hlen]
  · intro hs heq
    have hc : c < rest.length + 1 := by omega
    have hnc : ¬c < rest.length := by omega
    simp [slice_as_raster_getitem, hs, hc, hnc]
  · intro hs hlt
    have hc : ¬c < rest.length + 1 := by omega
    simp [slice_as_raster_getitem, hs, hc,
      slice_scan_axis_types_eq_spec rest labels hlen]

/-- Witness for C6: for a sequence with `common_axis = 0` over rank-3
cubes, the tuple `(slice, int, slice, slice)` addresses the slit-step axis
with a scalar and demotes to a plain `SpectrogramSequence` with
`common_axis = None`. -/
theorem claim_C6_slicing_witness :
    slice_as_raster_getitem 0 ["slit step", "position along slit", "spectral"]
        [.slc, .intIdx 1, .slc, .slc] = .plainSeq none :=
  (claim_C6_slicing 0 ["slit step", "position along slit", "spectral"]
      .slc [.intIdx 1, .slc, .slc] (by decide)).2.1 rfl (by decide) rfl

/-- Counterexample for C6 as stated: with `common_axis = 0`, the 1-tuple
`(slice,)` has no entry at the slit-step axis position and is therefore
"any other tuple index" for the claim, which predicts the result keeps the
`RasterSequence` type with every label kept — but the source evaluates
`item[1:][common_axis]` on the empty tail and an `IndexError` escapes. -/
theorem claim_C6_counterexample :
    slice_as_raster_getitem 0 ["slit step", "position along slit", "spectral"]
        [.slc] = .indexError
    ∧ SliceOutcome.indexError
        ≠ .rasterSeq (some 0) ["slit step", "position along slit", "spectral"] := by
  exact ⟨rfl, by decide⟩

/-! ### RasterSequence axis-type derivation
(`spectrogram_sequence.py` lines 173-199)

`RasterSequence.__init__` builds `_single_scan_instrument_axes_types`: an
array with one entry per pixel axis of the representative cube, starting
all-unset (`None`), then the slit-step label at `common_axis` (when
present), then the spectral label at every index where the cube's world
axis physical type equals the cube's bound spectral name (the
`len(np.where(...)) == 1` check in the source always holds — `np.where` on
a 1-D condition returns a 1-tuple — so the assignment always happens).
If more than one entry is still unset, a `ValueError` is raised; then all
still-unset entries receive the position-along-slit label.  The bound
spectral name of the representative cube lives in a module not under
`src/`; modelled from the spec, it is the spectral role's bound world-type
name, or absent. -/

def SLIT_STEP_AXIS_NAME : String := "slit step"

def SLIT_AXIS_NAME : String := "position along slit"

def SPECTRAL_AXIS_NAME : String := "spectral"

def AXES_INCONSISTENT_ERROR : String :=
  "WCS, missing_axes, and/or common_axis not consistent."

/-- numpy fancy assignment `types[np.where(wts == spectral_name)] =
SPECTRAL_AXIS_NAME`: every position whose world type equals the bound
spectral name receives the spectral label (valid when the world-type list
and the types array have the same length, which the theorems assume). -/
def set_spectral_from (wts : List String) (sn : Option String) :
    Nat → List (Option String) → List (Option String)
  | _, [] => []
  | j, t :: ts =>
    (if j < wts.length ∧ sn = some (wts.getD j "") then some SPECTRAL_AXIS_NAME
     else t) :: set_spectral_from wts sn (j + 1) ts

/-- The axis-type array right before the unlabeled-axis check: unset
everywhere, then slit-step at `common_axis`, then spectral at the matching
world types. -/
def initial_axes_types (ndim : Nat) (commonAxis : Option Nat)
    (wts : List String) (sn : Option String) : List (Option String) :=
  let t0 : List (Option String) := List.replicate ndim none
  let t1 :=
    match commonAxis with
    | some ca => t0.set ca (some SLIT_STEP_AXIS_NAME)
    | none => t0
  set_spectral_from wts sn 0 t1

/-- The full derivation: fail when more than one axis is still unlabeled,
otherwise fill every unlabeled axis with the position-along-slit label. -/
def derive_single_scan_instrument_axes_types (ndim : Nat)
    (commonAxis : Option Nat) (wts : List String) (sn : Option String) :
    Except PyErr (List String) :=
  let t := initial_axes_types ndim commonAxis wts sn
  if 1 < t.countP (fun x => x.isNone) then
    .error (.valueError AXES_INCONSISTENT_ERROR)
  else
    .ok (t.map fun x => x.getD SLIT_AXIS_NAME)

theorem set_spectral_from_length (wts : List String) (sn : Option String) :
    ∀ (t : List (Option String)) (k : Nat),
      (set_spectral_from wts sn k t).length = t.length := by
  intro t
  induction t with
  | nil => intro k; rfl
  | cons x ts ih => intro k; simp [set_spectral_from, ih (k + 1)]

theorem set_spectral_from_getD (wts : List String) (sn : Option String) :
    ∀ (t : List (Option String)) (k j : Nat), j < t.length →
      (set_spectral_from wts sn k t).getD j none
        = if k + j < wts.length ∧ sn = some (wts.getD (k + j) "") then
            some SPECTRAL_AXIS_NAME
          else t.getD j none := by
  intro t
  induction t with
  | nil => intro k j h; simp at h
  | cons x ts ih =>
    intro k j h
    cases j with
    | zero => simp [set_spectral_from]
    | succ n =>
      simp only [set_spectral_from, List.getD_cons_succ]
      rw [ih (k + 1) n (by simpa using h)]
      have harg : k + 1 + n = k + (n + 1) := by omega
      rw [harg]

theorem initial_axes_types_length (ndim : Nat) (ca : Option Nat)
    (wts : List String) (sn : Option String) :
    (initial_axes_types ndim ca wts sn).length = ndim := by
  unfold initial_axes_types
  cases ca <;> simp [set_spectral_from_length]

theorem initial_axes_types_getD (ndim : Nat) (ca : Option Nat)
    (wts : List String) (sn : Option String) (j : Nat) (hj : j < ndim) :
    (initial_axes_types ndim ca wts sn).getD j none
      = if j < wts.length ∧ sn = some (wts.getD j "") then
          some SPECTRAL_AXIS_NAME
        else if ca = some j then some SLIT_STEP_AXIS_NAME
        else none := by
  unfold initial_axes_types
  cases ca with
  | none =>
    rw [set_spectral_from_getD wts sn _ 0 j (by simpa using hj)]
    simp only [Nat.zero_add]
    by_cases h : j < wts.length ∧ sn = some (wts.getD j "")
    · rw [if_pos h, if_pos h]
    · rw [if_neg h, if_neg h, if_neg (by simp),
        List.getD_eq_getElem?_getD, List.getElem?_replicate_of_lt hj]
      rfl
  | some cav =>
    rw [set_spectral_from_getD wts sn _ 0 j (by simpa using hj)]
    simp only [Nat.zero_add]
    by_cases h : j < wts.length ∧ sn = some (wts.getD j "")
    · rw [if_pos h, if_pos h]
    · rw [if_neg h, if_neg h]
      by_cases hc : cav = j
      · subst hc
        rw [if_pos rfl, List.getD_eq_getElem?_getD,
          List.getElem?_set_self (by simpa using hj)]
        rfl
      · rw [if_neg (by simpa using hc), List.getD_eq_getElem?_getD,
          List.getElem?_set_ne hc, List.getElem?_replicate_of_lt hj]
        rfl

theorem getD_map_fill (t : List (Option String)) (j : Nat)
    (h : j < t.length) :
    (t.map fun x => x.getD SLIT_AXIS_NAME).getD j ""
      = (t.getD j none).getD SLIT_AXIS_NAME := by
  rw [List.getD_eq_getElem?_getD, List.getD_eq_getElem?_getD,
    List.getElem?_map, List.getElem?_eq_getElem h]
  rfl

/-- Claim C7 (amended): the derivation places the slit-step label at
`common_axis` (when no spectral match overrides it) and the spectral label
at every axis whose world type equals the bound spectral name; it fails
with the inconsistency `ValueError` exactly when more than one axis is
still unlabeled; otherwise it succeeds, and each still-unlabeled axis —
one or zero of them — receives the position-along-slit label (a derivation
with zero unlabeled axes succeeds rather than failing). -/
theorem claim_C7_axis_labels (ndim : Nat) (ca : Option Nat)
    (wts : List String) (sn : Option String) (hw : wts.length = ndim) :
    (derive_single_scan_instrument_axes_types ndim ca wts sn
        = .error (.valueError AXES_INCONSISTENT_ERROR)
      ↔ 1 < (initial_axes_types ndim ca wts sn).countP (fun x => x.isNone))
    ∧ ((initial_axes_types ndim ca wts sn).countP (fun x => x.isNone) ≤ 1 →
        derive_single_scan_instrument_axes_types ndim ca wts sn
          = .ok ((initial_axes_types ndim ca wts sn).map
              fun x => x.getD SLIT_AXIS_NAME))
    ∧ (∀ cav : Nat, ca = some cav → cav < ndim →
        ¬sn = some (wts.getD cav "") →
        (initial_axes_types ndim ca wts sn).getD cav none
          = some SLIT_STEP_AXIS_NAME)
    ∧ (∀ j : Nat, j < ndim → sn = some (wts.getD j "") →
        (initial_axes_types ndim ca wts sn).getD j none
          = some SPECTRAL_AXIS_NAME)
    ∧ (∀ j : Nat, j < ndim →
        (initial_axes_types ndim ca wts sn).getD j none = none →
        ((initial_axes_types ndim ca wts sn).map
            fun x => x.getD SLIT_AXIS_NAME).getD j ""
          = SLIT_AXIS_NAME) := by
  refine ⟨?_, ?_, ?_, ?_, ?_⟩
  · unfold derive_single_scan_instrument_axes_types
    by_cases h : 1 < (initial_axes_types ndim ca wts sn).countP fun x => x.isNone
    · simp [h]
    · simp [h]
  · intro h
    unfold derive_single_scan_instrument_axes_types
    rw [if_neg (by omega)]
  · intro cav hca hlt hns
    subst hca
    rw [initial_axes_types_getD ndim (some cav) wts sn cav hlt,
      if_neg (fun h => hns h.2), if_pos rfl]
  · intro j hj hsn
    rw [initial_axes_types_getD ndim ca wts sn j hj,
      if_pos ⟨by omega, hsn⟩]
  · intro j hj hnone
    have hlen : j < (initial_axes_types ndim ca wts sn).length := by
      rw [initial_axes_types_length]; exact hj
    rw [getD_map_fill _ j hlen, hnone]
    rfl

/-- Witness for C7: three pixel axes, `common_axis = 0`, the third world
type bound as spectral: exactly one axis is left unlabeled and receives the
position-along-slit label. -/
theorem claim_C7_axis_labels_witness :
    derive_single_scan_instrument_axes_types 3 (some 0) ["a", "b", "em.wl"]
        (some "em.wl")
      = .ok [SLIT_STEP_AXIS_NAME, SLIT_AXIS_NAME, SPECTRAL_AXIS_NAME] := by
  have h := (claim_C7_axis_labels 3 (some 0) ["a", "b", "em.wl"]
      (some "em.wl") rfl).2.1 (by decide)
  rw [h]
  rfl

/-- Counterexample for C7 as stated: with two pixel axes, `common_axis=0`
and the second world type bound as spectral, zero axes remain unlabeled,
yet construction succeeds (the source only fails when more than one axis
is unlabeled), contradicting the claim that zero unlabeled axes also fail
with the inconsistency error. -/
theorem claim_C7_counterexample :
    derive_single_scan_instrument_axes_types 2 (some 0) ["foo", "em.wl"]
        (some "em.wl")
      = .ok [SLIT_STEP_AXIS_NAME, SPECTRAL_AXIS_NAME]
    ∧ (initial_axes_types 2 (some 0) ["foo", "em.wl"]
        (some "em.wl")).countP (fun x => x.isNone) = 0 := by
  exact ⟨rfl, rfl⟩

end SlitSpec
